import Mathlib

/-!
Verification of the beammech beam solver (`src/beammech.py`, current variant
`src/src/beammech.py`) against its natural-language specification.

The embedding below translates the Python module into Lean over exact rational
arithmetic (`ℚ` stands for the real/IEEE values; the module's numerics are
plain `+ - * /` so every identity proved here is an identity of the underlying
real-number algorithm).  numpy arrays of length `L+1` become `List ℚ`;
numpy's `cumsum`, `linspace`, `concatenate`, elementwise arithmetic and
`a[p:] = v` slice assignment are given faithful list translations.  Fallible
Python code (functions that `raise`) returns `Except PyErr`.
-/

namespace Beammech

/-- Python's `round` (round half to even, as used on the float positions and
lengths fed to the module). -/
def pyround (x : ℚ) : ℤ :=
  let f : ℤ := ⌊x⌋
  let r : ℚ := x - f
  if r < 1/2 then f
  else if 1/2 < r then f + 1
  else if f % 2 = 0 then f else f + 1

/-- `np.cumsum`, helper carrying the running total. -/
def cumsumAux (s : ℚ) : List ℚ → List ℚ
  | [] => []
  | x :: xs => (s + x) :: cumsumAux (s + x) xs

/-- `np.cumsum`: discrete running total, same length as the input. -/
def cumsum (l : List ℚ) : List ℚ := cumsumAux 0 l

/-- `np.linspace(a, b, num)` with the default `endpoint=True`:
`num` evenly spaced samples from `a` to `b` inclusive (one sample `[a]` when
`num = 1`, empty when `num = 0`). -/
def pylinspace (a b : ℚ) (num : ℕ) : List ℚ :=
  (List.range num).map
    (fun (i : ℕ) => if num ≤ 1 then a else a + (b - a) * (i : ℚ) / ((num : ℚ) - 1))

/-- `np.sum(np.array(ls), axis=0)` for a list of arrays that all have length
`n` (the only shape the module ever builds): entrywise sum.  An empty list of
arrays sums to the zero array, matching numpy's behavior in `solve` when no
moment loads are present. -/
def listSum (n : ℕ) (ls : List (List ℚ)) : List ℚ :=
  (List.range n).map (fun i => (ls.map (fun l => l.getD i 0)).sum)

/-- Start index of the Python slice `a[p:]` for an array of length `n`:
`p` clamped into `[0, n]`, negative `p` counting from the end. -/
def sliceStart (n : ℕ) (p : ℤ) : ℕ :=
  if 0 ≤ p then min p.toNat n else n - (-p).toNat

/-- `rv = np.zeros(n); rv[p:] = v` — zero except for the slice-assigned tail. -/
def stepList (n : ℕ) (p : ℤ) (v : ℚ) : List ℚ :=
  (List.range n).map (fun i => if sliceStart n p ≤ i then v else 0)

/-- Python's `max` over a nonempty list (`0` stands in for the `ValueError`
on an empty list, which the module never produces). -/
def pymax (l : List ℚ) : ℚ :=
  match l with
  | [] => 0
  | x :: xs => xs.foldl max x

/-- Python's `min` over a nonempty list. -/
def pymin (l : List ℚ) : ℚ :=
  match l with
  | [] => 0
  | x :: xs => xs.foldl min x

/-- The exceptions the module raises. -/
inductive PyErr where
  | valueError (msg : String)
  | keyError (msg : String)
  | zeroDivisionError
  deriving DecidableEq, Repr

/-- Decidable equality on `Except`, for evaluating concrete runs of the
fallible functions in witnesses and counterexamples. -/
def exceptDecEq {ε α : Type} [DecidableEq ε] [DecidableEq α] :
    (a b : Except ε α) → Decidable (a = b)
  | .error e, .error f =>
      if h : e = f then .isTrue (by rw [h])
      else .isFalse (fun hc => by injection hc; contradiction)
  | .error _, .ok _ => .isFalse (fun hc => by cases hc)
  | .ok _, .error _ => .isFalse (fun hc => by cases hc)
  | .ok x, .ok y =>
      if h : x = y then .isTrue (by rw [h])
      else .isFalse (fun hc => by injection hc; contradiction)

instance {ε α : Type} [DecidableEq ε] [DecidableEq α] : DecidableEq (Except ε α) :=
  exceptDecEq

/-- The load hierarchy (`Load`, `MomentLoad`, `DistLoad`, `TriangleLoad`),
as the data each constructed object stores:
* `point size pos` — `Load` with `self.size` and integer `self.pos`;
* `momentL m pos` — `MomentLoad` with `self.m` (its `size` is `0`);
* `dist size start stop` — `DistLoad` after `__init__` normalized
  `start <= stop`;
* `triangle size start stop` — `TriangleLoad` (it inherits `DistLoad`'s
  normalization; its derived `pos` and `q` are the functions below). -/
inductive PyLoad where
  | point (size : ℚ) (pos : ℤ)
  | momentL (m : ℚ) (pos : ℤ)
  | dist (size : ℚ) (start stop : ℤ)
  | triangle (size : ℚ) (start stop : ℤ)
  deriving DecidableEq, Repr

/-- `Load.__init__`: `self.size = force`, `self.pos = round(pos)`. -/
def mkLoad (force : ℚ) (pos : ℚ) : PyLoad := .point force (pyround pos)

/-- `MomentLoad.__init__`: stores `self.m = moment` and, via
`Load.__init__(force=0, pos=pos)`, `size = 0` and rounded `pos`. -/
def mkMomentLoad (moment : ℚ) (pos : ℚ) : PyLoad := .momentL moment (pyround pos)

/-- `DistLoad.__init__`: rounds `start`/`end`, swaps them into ascending
order.  (Its `pos` attribute, `round((start+end)/2)`, is the derived
function `PyLoad.posQ` below.)  Note: a zero-length span (`start == end`)
is accepted without any validation. -/
def mkDistLoad (force : ℚ) (start stop : ℚ) : PyLoad :=
  let s := pyround start
  let e := pyround stop
  if s > e then .dist force e s else .dist force s e

/-- `TriangleLoad.__init__`: runs `DistLoad.__init__` then computes
`self.q = 2*size/length` with `length = abs(start-end)`.  When the rounded
span is empty that division is `2*size/0`, a Python `ZeroDivisionError`. -/
def mkTriangleLoad (force : ℚ) (start stop : ℚ) : Except PyErr PyLoad :=
  let s := pyround start
  let e := pyround stop
  if s = e then .error .zeroDivisionError
  else if s > e then .ok (.triangle force e s) else .ok (.triangle force s e)

/-- `self.size` of each load object (`MomentLoad` was built with `force=0`). -/
def PyLoad.size : PyLoad → ℚ
  | .point s _ => s
  | .momentL _ _ => 0
  | .dist s _ _ => s
  | .triangle s _ _ => s

/-- `self.pos` of each load object: the stored integer position for
`Load`/`MomentLoad`; `round((start+end)/2)` for `DistLoad`
(`Load.__init__(pos=(start+end)/2)` rounds it); `round(min(pos)) +
2*length/3` for `TriangleLoad` (set after `DistLoad.__init__`, not rounded
as a whole). -/
def PyLoad.posQ : PyLoad → ℚ
  | .point _ p => p
  | .momentL _ p => p
  | .dist _ s e => (pyround (((s : ℚ) + e) / 2) : ℚ)
  | .triangle _ s e => (min s e : ℚ) + 2 * ((e - s).natAbs : ℚ) / 3

/-- `ld.moment(pos)`: `(self.pos - pos) * self.size`, overridden by
`MomentLoad` to return the constant `self.m`. -/
def PyLoad.momentAt (ld : PyLoad) (pos : ℚ) : ℚ :=
  match ld with
  | .momentL m _ => m
  | _ => (ld.posQ - pos) * ld.size

/-- `TriangleLoad`'s `self.q = 2*size/length` (define `q` of the other
variants as `0`; it is never read). -/
def PyLoad.qOf : PyLoad → ℚ
  | .triangle f s e => 2 * f / ((e : ℚ) - s)
  | _ => 0

/-- `ld.shear(length)`: the load's contribution (length `length+1`) to the
shear array.
* `Load`: `rv = zeros(length+1); rv[pos:] = size`;
* `MomentLoad`: `zeros(length+1)`;
* `DistLoad`: `concatenate((zeros(start), linspace(0, size, end-start), ones(length+1-end)*size))`;
* `TriangleLoad`: `cumsum(concatenate((zeros(start), linspace(0, q, end-start), ones(length+1-end)*q)))`.
The `toNat` clamps only matter for loads the code would crash on
(numpy raises on negative dimensions); every theorem below constrains the
spans to the cases numpy accepts. -/
def shearList (ld : PyLoad) (length : ℕ) : List ℚ :=
  match ld with
  | .point s p => stepList (length + 1) p s
  | .momentL _ _ => List.replicate (length + 1) 0
  | .dist f s e =>
      List.replicate s.toNat 0 ++ pylinspace 0 f (e - s).toNat ++
        List.replicate ((length + 1) - e.toNat) f
  | .triangle f s e =>
      let q := 2 * f / ((e : ℚ) - s)
      cumsum (List.replicate s.toNat 0 ++ pylinspace 0 q (e - s).toNat ++
        List.replicate ((length + 1) - e.toNat) q)

/-- `MomentLoad.moment_array(length)`:
`rv = zeros(length+1); rv[pos:] = -m` (zero array for the other variants,
which do not define the method; `solve` only calls it on `MomentLoad`s). -/
def momentArr (ld : PyLoad) (length : ℕ) : List ℚ :=
  match ld with
  | .momentL m p => stepList (length + 1) p (-m)
  | _ => List.replicate (length + 1) 0

/-- `isinstance(ld, MomentLoad)`. -/
def PyLoad.isMomentL : PyLoad → Bool
  | .momentL _ _ => true
  | _ => false

/-- Loads inside `[0, L]` that are not `TriangleLoad`s (decidable form). -/
def inSpanNoTri (L : ℕ) : PyLoad → Bool
  | .point _ p => decide (0 ≤ p) && decide (p ≤ (L : ℤ))
  | .momentL _ p => decide (0 ≤ p) && decide (p ≤ (L : ℤ))
  | .dist _ s e => decide (0 ≤ s) && decide (s ≤ e) && decide (e ≤ (L : ℤ))
  | .triangle _ _ _ => false


/-- `_check_length_supports(length, supports)`: round the length and, when
two supports are given, round them, reject identical supports, sort them
ascending and reject supports outside the beam.  Returns
`(length, support1, support2)` with `support2 = none` for a clamped beam. -/
def _check_length_supports (length : ℚ) (supports : Option (ℚ × ℚ)) :
    Except PyErr (ℕ × ℕ × Option ℕ) :=
  let L := pyround length
  if L < 1 then .error (.valueError "length must be >=1")
  else
    match supports with
    | some (a, b) =>
        let p0 := pyround a
        let p1 := pyround b
        if p0 = p1 then .error (.valueError "Two identical supports found!")
        else
          let s0 := min p0 p1
          let s1 := max p0 p1
          if s0 < 0 ∨ s1 > L then .error (.valueError "Support(s) outside of the beam!")
          else .ok (L.toNat, s0.toNat, some s1.toNat)
    | none => .ok (L.toNat, 0, none)

/-- `_check_loads(loads)`: rejects an empty collection; every element being a
`Load` instance is enforced by the Lean type.  (The convenience wrapping of a
single bare `Load` into a one-element list is left to the caller here.)
No property of the loads themselves — in particular no position bound — is
checked. -/
def _check_loads (loads : List PyLoad) : Except PyErr (List PyLoad) :=
  if loads.isEmpty then .error (.valueError "No loads specified")
  else .ok loads

/-- A stiffness/geometry argument to `solve`: a bare number (broadcast to a
constant array) or a full array. -/
inductive ArrArg where
  | scalar (v : ℚ)
  | arr (l : List ℚ)
  deriving DecidableEq, Repr

/-- One array check of `_check_arrays`: broadcast a scalar to length `L+1`,
or require an array of length exactly `L+1`. -/
def checkArr (L : ℕ) (name : String) (a : ArrArg) : Except PyErr (List ℚ) :=
  match a with
  | .scalar v => .ok (List.replicate (L + 1) v)
  | .arr l =>
      if l.length = L + 1 then .ok l
      else .error (.valueError (name ++ " length does not match beam length + 1"))

/-- `_check_arrays(length, EI, GA, top, bottom)`: the four checks in source
order, first failure wins. -/
def _check_arrays (L : ℕ) (EI GA top bottom : ArrArg) :
    Except PyErr (List ℚ × List ℚ × List ℚ × List ℚ) :=
  match checkArr L "EI" EI with
  | .error e => .error e
  | .ok EIa =>
  match checkArr L "GA" GA with
  | .error e => .error e
  | .ok GAa =>
  match checkArr L "top" top with
  | .error e => .error e
  | .ok topa =>
  match checkArr L "bottom" bottom with
  | .error e => .error e
  | .ok bota => .ok (EIa, GAa, topa, bota)

/-- The reaction-load block of `solve` (its "Calculate support loads" /
"Force equilibrium" section).  Returns `(R1, R2, working)` where `working`
is the working copy of the load list after the reactions were appended:
* two supports: `R2 = Load(force=-moment/(s2-s1), pos=s2)` with
  `moment = sum(ld.moment(s1))`, appended; then
  `R1 = Load(force=-sum(ld.size), pos=s1)` over the list including `R2`,
  appended;
* clamped: `R2 = -moment` (a bare number), only
  `R1 = Load(force=-sum(ld.size), pos=s1)` is appended.
The source's truthiness test `if s2:` coincides with this `match`: after
validation `s2` is either `None` or an integer `> s1 >= 0`, never 0. -/
def addReactions (loads : List PyLoad) (s1 : ℕ) (os2 : Option ℕ) :
    PyLoad × (PyLoad ⊕ ℚ) × List PyLoad :=
  let moment := (loads.map (fun ld => ld.momentAt (s1 : ℚ))).sum
  match os2 with
  | some s2 =>
      let R2 := mkLoad (-moment / ((s2 : ℚ) - (s1 : ℚ))) (s2 : ℚ)
      let l2 := loads ++ [R2]
      let R1 := mkLoad (-((l2.map PyLoad.size).sum)) (s1 : ℚ)
      (R1, .inl R2, l2 ++ [R1])
  | none =>
      let R1 := mkLoad (-((loads.map PyLoad.size).sum)) (s1 : ℚ)
      (R1, .inr (-moment), loads ++ [R1])

/-- The `types.SimpleNamespace` returned by `solve`.  (`results.a`,
`arctan` of `dy`, is informational only and is irrational; it is omitted
here — no claim concerns it.) -/
structure SolveResult where
  length : ℕ
  D : List ℚ
  M : List ℚ
  dy : List ℚ
  y : List ℚ
  etop : List ℚ
  ebot : List ℚ
  R1 : PyLoad
  R2 : PyLoad ⊕ ℚ
  deriving DecidableEq, Repr

/-- `D = np.sum(np.array([ld.shear(length) for ld in loads]), axis=0)` over
the working load list (reactions included). -/
def shearD (L : ℕ) (working : List PyLoad) : List ℚ :=
  listSum (L + 1) (working.map (fun ld => shearList ld L))

/-- `M = np.cumsum(D); M += Mstep` with `Mstep` the summed
`moment_array`s of the `MomentLoad`s, then `M -= M[-1]` when clamped
(`s2 is None`). -/
def momentM (L : ℕ) (os2 : Option ℕ) (working : List PyLoad) : List ℚ :=
  let M1 := List.zipWith (· + ·) (cumsum (shearD L working))
    (listSum (L + 1) ((working.filter PyLoad.isMomentL).map (fun ld => momentArr ld L)))
  match os2 with
  | none => M1.map (fun v => v - M1.getD L 0)
  | some _ => M1

/-- `dy = np.cumsum(ddy_b)` plus, when `shear` is enabled, the term
`-1.5*D/GA`. -/
def dyOf (GAa : List ℚ) (shear : Bool) (D ddy : List ℚ) : List ℚ :=
  let dy0 := cumsum ddy
  if shear then
    List.zipWith (· + ·) dy0 (List.zipWith (fun dv g => -(3/2 : ℚ) * dv / g) D GAa)
  else dy0

/-- The rotation slope `delta = -y[s2]/math.fabs(s1 - s2)` applied after the
translation `y - y[s1]`. -/
def alignDelta (s1 s2 : ℕ) (y0 : List ℚ) : ℚ :=
  -((y0.map (fun v => v - y0.getD s1 0)).getD s2 0) / |((s1 : ℚ) - (s2 : ℚ))|

/-- Boundary normalization for the simply supported case: translate the
deflection so it is zero at `s1`, then add the linear ramp
`slope[i] = (i - s1) * delta` (the source builds the values `i - s1`,
`i = 0..L`, by concatenating two `arange`s). -/
def alignY (L s1 s2 : ℕ) (y0 : List ℚ) : List ℚ :=
  List.zipWith (· + ·) (y0.map (fun v => v - y0.getD s1 0))
    ((List.range (L + 1)).map (fun (i : ℕ) => ((i : ℚ) - (s1 : ℚ)) * alignDelta s1 s2 y0))

/-- The computational body of `solve` after validation (source lines
206–252).  Exact-rational translation of the numpy pipeline; where numpy
division by zero would give `inf`/`nan`, `ℚ` yields `0` (no theorem below
depends on a division by zero). -/
def solveCore (L s1 : ℕ) (os2 : Option ℕ) (loads : List PyLoad)
    (EIa GAa topa bota : List ℚ) (shear : Bool) : SolveResult :=
  let rx := addReactions loads s1 os2
  let working := rx.2.2
  let D := shearD L working
  let M := momentM L os2 working
  -- ddy_b = M/EI; etop, ebot = -top*ddy_b, -bot*ddy_b
  let ddy := List.zipWith (· / ·) M EIa
  let etop := List.zipWith (fun t d => -t * d) topa ddy
  let ebot := List.zipWith (fun b d => -b * d) bota ddy
  let dy1 := dyOf GAa shear D ddy
  let y0 := cumsum dy1
  match os2 with
  | some s2 =>
      { length := L, D := D, M := M, dy := dy1.map (· + alignDelta s1 s2 y0),
        y := alignY L s1 s2 y0,
        etop := etop, ebot := ebot, R1 := rx.1, R2 := rx.2.1 }
  | none =>
      { length := L, D := D, M := M, dy := dy1, y := y0,
        etop := etop, ebot := ebot, R1 := rx.1, R2 := rx.2.1 }

/-- `solve(length, supports, loads, EI, GA, top, bottom, shear)`: validate,
compute reactions, integrate.  The `shear in (True, False)` check always
passes for a Lean `Bool`. -/
def solve (length : ℚ) (supports : Option (ℚ × ℚ)) (loads : List PyLoad)
    (EI GA top bottom : ArrArg) (shear : Bool) : Except PyErr SolveResult :=
  match _check_length_supports length supports with
  | .error e => .error e
  | .ok (L, s1, os2) =>
  match _check_loads loads with
  | .error e => .error e
  | .ok lds =>
  -- loads = [ld for ld in loads]  # make a copy since we modify it!
  -- (see solveListOps below for the aliasing content of that line)
  match _check_arrays L EI GA top bottom with
  | .error e => .error e
  | .ok (EIa, GAa, topa, bota) =>
      .ok (solveCore L s1 os2 lds EIa GAa topa bota shear)

/-- The list-object manipulation of `solve` made explicit.  Python lists are
heap objects; `store` is the heap (a list of list-objects) and `callerRef`
the index of the caller's load list.  Line 202, `loads = [ld for ld in
loads]`, allocates a NEW list object (here: appended at index
`store.length`) holding the same elements; the two reaction `append`s then
mutate only that new object.  Returns the heap after `solve`'s load-list
operations together with the reference to the working list. -/
def solveListOps (store : List (List PyLoad)) (callerRef : ℕ) (s1 : ℕ)
    (os2 : Option ℕ) : List (List PyLoad) × ℕ :=
  let caller := store.getD callerRef []
  (store ++ [(addReactions caller s1 os2).2.2], store.length)

/-- A rectangular cross-section layer `(width, height, offset, E)` as fed to
`EI`. -/
structure Sect where
  w : ℚ
  h : ℚ
  offs : ℚ
  E : ℚ
  deriving DecidableEq, Repr

/-- A split layer of `EI`'s `new_geom`: `(width, height, top, bottom, E)`. -/
structure SplitSect where
  w : ℚ
  h : ℚ
  top : ℚ
  bot : ℚ
  E : ℚ
  deriving DecidableEq, Repr

/-- The neutral-axis location of `EI`: widths homogenized by `E/normal`
(with `normal` the FIRST layer's modulus, line 337), then the area-weighted
centroid `yn = S/A`. -/
def EIyn (sections : List Sect) : ℚ :=
  let nrm := (sections.headD ⟨0, 0, 0, 0⟩).E
  let normalized := sections.map (fun s => (s.w * s.E / nrm, s.h, s.offs))
  let A := (normalized.map (fun t => t.1 * t.2.1)).sum
  let S := (normalized.map (fun t => t.1 * t.2.1 * (t.2.2 + t.2.1 / 2))).sum
  S / A

/-- `EI`'s `new_geom`: every layer straddling the neutral axis is split
there into an upper and a lower sub-layer; the remaining layers are
re-expressed relative to the neutral axis.  (The source builds `geom` as
`g for g in sections if g not in to_split`, which for value-compared tuples
is the complement of the straddle predicate.) -/
def EIsplit (sections : List Sect) : List SplitSect :=
  let yn := EIyn sections
  let straddle := fun g : Sect => decide (g.offs < yn) && decide (g.h + g.offs > yn)
  ((sections.filter straddle).map (fun g =>
      [⟨g.w, yn - g.offs, yn - g.offs, 0, g.E⟩,
       ⟨g.w, g.h - (yn - g.offs), 0, -(g.h - (yn - g.offs)), g.E⟩])).flatten ++
    (sections.filter (fun g => !(straddle g))).map
      (fun g => ⟨g.w, g.h, yn - g.offs, yn - g.offs - g.h, g.E⟩)

/-- `EI(sections, normal)` (current variant): the `normal` parameter is
immediately overwritten by the first layer's modulus (line 337,
`normal = sections[0][-1]`), so it is dead; the homogenized widths are used
only to locate the neutral axis (`EIyn`), the stiffness is
`sum(E*w*(top^3 - bot^3)/3)` over the split geometry (`EIsplit`), and the
fiber distances are the extreme `top`/`bot` offsets.  Python would raise on
an empty `sections`; the `headD` default is never reached in any theorem. -/
def EIfun (sections : List Sect) (normal : Option ℚ) : ℚ × ℚ × ℚ :=
  let _ := normal
  let new_geom := EIsplit sections
  ((new_geom.map (fun g => g.E * g.w * (g.top ^ 3 - g.bot ^ 3) / 3)).sum,
   pymax (new_geom.map SplitSect.top), pymin (new_geom.map SplitSect.bot))

/-! ### Basic lemmas about the array helpers -/

theorem cumsumAux_length (s : ℚ) (l : List ℚ) : (cumsumAux s l).length = l.length := by
  induction l generalizing s with
  | nil => rfl
  | cons x xs ih => simp [cumsumAux, ih]

theorem cumsum_length (l : List ℚ) : (cumsum l).length = l.length :=
  cumsumAux_length 0 l

theorem listSum_length (n : ℕ) (ls : List (List ℚ)) : (listSum n ls).length = n := by
  simp [listSum]

theorem listSum_getD (n : ℕ) (ls : List (List ℚ)) (i : ℕ) (hi : i < n) :
    (listSum n ls).getD i 0 = (ls.map (fun l => l.getD i 0)).sum := by
  rw [listSum, List.getD_eq_getElem _ _ (by simpa using hi)]
  simp

theorem stepList_length (n : ℕ) (p : ℤ) (v : ℚ) : (stepList n p v).length = n := by
  simp [stepList]

theorem stepList_getD (n : ℕ) (p : ℤ) (v : ℚ) (i : ℕ) (hi : i < n) :
    (stepList n p v).getD i 0 = if sliceStart n p ≤ i then v else 0 := by
  rw [stepList, List.getD_eq_getElem _ _ (by simpa using hi)]
  simp

theorem pylinspace_length (a b : ℚ) (num : ℕ) : (pylinspace a b num).length = num := by
  rw [pylinspace, List.length_map, List.length_range]

theorem checkArr_ok_length (L : ℕ) (name : String) (a : ArrArg) (l : List ℚ)
    (h : checkArr L name a = .ok l) : l.length = L + 1 := by
  cases a with
  | scalar v =>
      simp only [checkArr] at h
      cases h
      simp
  | arr l0 =>
      simp only [checkArr] at h
      by_cases hl : l0.length = L + 1
      · rw [if_pos hl] at h; cases h; exact hl
      · rw [if_neg hl] at h; cases h

theorem _check_arrays_ok (L : ℕ) (EI GA top bottom : ArrArg)
    (EIa GAa topa bota : List ℚ)
    (h : _check_arrays L EI GA top bottom = .ok (EIa, GAa, topa, bota)) :
    checkArr L "EI" EI = .ok EIa ∧ checkArr L "GA" GA = .ok GAa ∧
      checkArr L "top" top = .ok topa ∧ checkArr L "bottom" bottom = .ok bota := by
  unfold _check_arrays at h
  cases hE : checkArr L "EI" EI with
  | error e => rw [hE] at h; cases h
  | ok vE =>
    rw [hE] at h
    cases hG : checkArr L "GA" GA with
    | error e => rw [hG] at h; cases h
    | ok vG =>
      rw [hG] at h
      cases hT : checkArr L "top" top with
      | error e => rw [hT] at h; cases h
      | ok vT =>
        rw [hT] at h
        cases hB : checkArr L "bottom" bottom with
        | error e => rw [hB] at h; cases h
        | ok vB =>
          rw [hB] at h
          injection h with h
          injection h with h1 h
          injection h with h2 h
          injection h with h3 h4
          subst h1; subst h2; subst h3; subst h4
          exact ⟨rfl, rfl, rfl, rfl⟩

theorem solve_eq_ok (length : ℚ) (supports : Option (ℚ × ℚ)) (loads : List PyLoad)
    (EI GA top bottom : ArrArg) (shear : Bool) (L s1 : ℕ) (os2 : Option ℕ)
    (EIa GAa topa bota : List ℚ)
    (hchk : _check_length_supports length supports = .ok (L, s1, os2))
    (hld : loads ≠ [])
    (harr : _check_arrays L EI GA top bottom = .ok (EIa, GAa, topa, bota)) :
    solve length supports loads EI GA top bottom shear =
      .ok (solveCore L s1 os2 loads EIa GAa topa bota shear) := by
  have hne : loads.isEmpty = false := by
    cases loads with
    | nil => exact absurd rfl hld
    | cons x xs => rfl
  simp only [solve, _check_loads, hchk, hne, harr, Bool.false_eq_true, if_false]

theorem solveCore_D (L s1 : ℕ) (os2 : Option ℕ) (loads : List PyLoad)
    (EIa GAa topa bota : List ℚ) (shear : Bool) :
    (solveCore L s1 os2 loads EIa GAa topa bota shear).D =
      shearD L (addReactions loads s1 os2).2.2 := by
  cases os2 <;> rfl

theorem solveCore_M (L s1 : ℕ) (os2 : Option ℕ) (loads : List PyLoad)
    (EIa GAa topa bota : List ℚ) (shear : Bool) :
    (solveCore L s1 os2 loads EIa GAa topa bota shear).M =
      momentM L os2 (addReactions loads s1 os2).2.2 := by
  cases os2 <;> rfl

theorem solveCore_R1 (L s1 : ℕ) (os2 : Option ℕ) (loads : List PyLoad)
    (EIa GAa topa bota : List ℚ) (shear : Bool) :
    (solveCore L s1 os2 loads EIa GAa topa bota shear).R1 =
      (addReactions loads s1 os2).1 := by
  cases os2 <;> rfl

theorem solveCore_R2 (L s1 : ℕ) (os2 : Option ℕ) (loads : List PyLoad)
    (EIa GAa topa bota : List ℚ) (shear : Bool) :
    (solveCore L s1 os2 loads EIa GAa topa bota shear).R2 =
      (addReactions loads s1 os2).2.1 := by
  cases os2 <;> rfl

theorem solveCore_y_two (L s1 s2 : ℕ) (loads : List PyLoad)
    (EIa GAa topa bota : List ℚ) (shear : Bool) :
    (solveCore L s1 (some s2) loads EIa GAa topa bota shear).y =
      alignY L s1 s2 (cumsum (dyOf GAa shear
        (shearD L (addReactions loads s1 (some s2)).2.2)
        (List.zipWith (· / ·) (momentM L (some s2) (addReactions loads s1 (some s2)).2.2) EIa))) :=
  rfl

/-- Facts guaranteed by any successful `_check_length_supports`. -/
theorem check_ok_bounds (len : ℚ) (sups : Option (ℚ × ℚ)) (L s1 : ℕ) (os2 : Option ℕ)
    (h : _check_length_supports len sups = .ok (L, s1, os2)) :
    1 ≤ L ∧ s1 ≤ L ∧ ∀ s2, os2 = some s2 → s1 < s2 ∧ s2 ≤ L := by
  unfold _check_length_supports at h
  by_cases hL : pyround len < 1
  · rw [if_pos hL] at h; cases h
  · rw [if_neg hL] at h
    push_neg at hL
    cases sups with
    | none =>
        simp only at h
        injection h with h
        injection h with h1 h
        injection h with h2 h3
        subst h1; subst h2
        exact ⟨by omega, by omega, fun s2 hs2 => by rw [← h3] at hs2; cases hs2⟩
    | some ab =>
        obtain ⟨a, b⟩ := ab
        simp only at h
        by_cases hpq : pyround a = pyround b
        · rw [if_pos hpq] at h; cases h
        · rw [if_neg hpq] at h
          by_cases hout : min (pyround a) (pyround b) < 0 ∨ max (pyround a) (pyround b) > pyround len
          · rw [if_pos hout] at h; cases h
          · rw [if_neg hout] at h
            push_neg at hout
            obtain ⟨hmin, hmax⟩ := hout
            injection h with h
            injection h with h1 h
            injection h with h2 h3
            subst h1; subst h2
            have hlt : min (pyround a) (pyround b) < max (pyround a) (pyround b) :=
              min_lt_max.mpr hpq
            refine ⟨by omega, by omega, fun s2 hs2 => ?_⟩
            rw [← h3] at hs2
            injection hs2 with hs2
            subst hs2
            constructor <;> omega

theorem pyround_intCast (n : ℤ) : pyround (n : ℚ) = n := by
  unfold pyround
  norm_num

theorem pyround_natCast (n : ℕ) : pyround (n : ℚ) = n := by
  have := pyround_intCast (n : ℤ)
  rwa [Int.cast_natCast] at this

/-! ### Lengths through the integration pipeline -/

theorem shearD_length (L : ℕ) (working : List PyLoad) :
    (shearD L working).length = L + 1 := listSum_length _ _

theorem momentM_length (L : ℕ) (os2 : Option ℕ) (working : List PyLoad) :
    (momentM L os2 working).length = L + 1 := by
  have h1 : (List.zipWith (· + ·) (cumsum (shearD L working))
      (listSum (L + 1) ((working.filter PyLoad.isMomentL).map
        (fun ld => momentArr ld L)))).length = L + 1 := by
    rw [List.length_zipWith, cumsum_length, shearD_length, listSum_length, min_self]
  cases os2 with
  | none => simpa [momentM] using h1
  | some s2 => simpa [momentM] using h1

theorem dyOf_length (GAa : List ℚ) (shear : Bool) (D ddy : List ℚ)
    (hD : D.length = ddy.length) (hG : GAa.length = ddy.length) :
    (dyOf GAa shear D ddy).length = ddy.length := by
  cases shear with
  | false => simpa [dyOf] using cumsum_length ddy
  | true =>
      simp only [dyOf, if_true]
      rw [List.length_zipWith, List.length_zipWith, cumsum_length, hD, hG]
      omega

/-- `getD` of an entrywise sum (`zipWith (+)`) inside its length. -/
theorem getD_zipWith_add (l1 l2 : List ℚ) (i : ℕ) (h1 : i < l1.length)
    (h2 : i < l2.length) :
    (List.zipWith (· + ·) l1 l2).getD i 0 = l1.getD i 0 + l2.getD i 0 := by
  have hz : i < (List.zipWith (· + ·) l1 l2).length := by
    rw [List.length_zipWith]; omega
  rw [List.getD_eq_getElem _ _ hz, List.getElem_zipWith,
    List.getD_eq_getElem _ _ h1, List.getD_eq_getElem _ _ h2]

theorem getD_map_sub (l : List ℚ) (c : ℚ) (i : ℕ) (h : i < l.length) :
    (l.map (fun v => v - c)).getD i 0 = l.getD i 0 - c := by
  have hm : i < (l.map (fun v => v - c)).length := by simpa using h
  rw [List.getD_eq_getElem _ _ hm, List.getElem_map, List.getD_eq_getElem _ _ h]

/-! ### The boundary normalization (translate then rotate) -/

theorem alignY_length (L s1 s2 : ℕ) (y0 : List ℚ) (hy : y0.length = L + 1) :
    (alignY L s1 s2 y0).length = L + 1 := by
  rw [alignY, List.length_zipWith, List.length_map, List.length_map,
    List.length_range, hy, min_self]

theorem alignY_getD (L s1 s2 i : ℕ) (y0 : List ℚ) (hy : y0.length = L + 1)
    (hi : i ≤ L) :
    (alignY L s1 s2 y0).getD i 0 =
      (y0.getD i 0 - y0.getD s1 0) + ((i : ℚ) - (s1 : ℚ)) * alignDelta s1 s2 y0 := by
  have hmap : i < (y0.map (fun v => v - y0.getD s1 0)).length := by
    rw [List.length_map, hy]; omega
  have hrange : i < ((List.range (L + 1)).map
      (fun (j : ℕ) => ((j : ℚ) - (s1 : ℚ)) * alignDelta s1 s2 y0)).length := by
    rw [List.length_map, List.length_range]; omega
  rw [alignY, getD_zipWith_add _ _ i hmap hrange,
    getD_map_sub _ _ _ (by rw [hy]; omega)]
  congr 1
  rw [List.getD_eq_getElem _ _ hrange, List.getElem_map, List.getElem_range]

theorem alignY_getD_fst (L s1 s2 : ℕ) (y0 : List ℚ) (hy : y0.length = L + 1)
    (h1 : s1 ≤ L) : (alignY L s1 s2 y0).getD s1 0 = 0 := by
  rw [alignY_getD L s1 s2 s1 y0 hy h1]
  ring

theorem alignY_getD_snd (L s1 s2 : ℕ) (y0 : List ℚ) (hy : y0.length = L + 1)
    (h12 : s1 < s2) (h2 : s2 ≤ L) : (alignY L s1 s2 y0).getD s2 0 = 0 := by
  rw [alignY_getD L s1 s2 s2 y0 hy h2]
  have habs : |((s1 : ℚ) - (s2 : ℚ))| = (s2 : ℚ) - (s1 : ℚ) := by
    rw [abs_of_neg (by
      have : (s1 : ℚ) < (s2 : ℚ) := by exact_mod_cast h12
      linarith)]
    ring
  have hne : (s2 : ℚ) - (s1 : ℚ) ≠ 0 := by
    have : (s1 : ℚ) < (s2 : ℚ) := by exact_mod_cast h12
    linarith
  rw [alignDelta, habs, getD_map_sub _ _ _ (by rw [hy]; omega)]
  field_simp

/-! ### The shear array returns to the reaction balance at the far end -/

theorem getD_replicate_lt (n i : ℕ) (v : ℚ) (h : i < n) :
    (List.replicate n v).getD i 0 = v := by
  rw [List.getD_eq_getElem _ _ (by simpa using h), List.getElem_replicate]

/-- The last entry of a within-beam point/moment/distributed load's shear
contribution is its full magnitude (`0` for a moment load, whose `size`
is `0`). -/
theorem shearList_getD_last (L : ℕ) (ld : PyLoad) (h : inSpanNoTri L ld = true) :
    (shearList ld L).getD L 0 = ld.size := by
  cases ld with
  | point s p =>
      simp only [inSpanNoTri, Bool.and_eq_true, decide_eq_true_eq] at h
      obtain ⟨h0, hL⟩ := h
      rw [shearList, stepList_getD _ _ _ _ (by omega), PyLoad.size]
      rw [if_pos ?_]
      rw [sliceStart, if_pos h0]
      have : p.toNat ≤ L := by omega
      omega
  | momentL m p =>
      rw [shearList, PyLoad.size, getD_replicate_lt _ _ _ (by omega)]
  | dist f s e =>
      simp only [inSpanNoTri, Bool.and_eq_true, decide_eq_true_eq] at h
      obtain ⟨⟨h0, hse⟩, heL⟩ := h
      rw [shearList, PyLoad.size]
      have hlen1 : (List.replicate s.toNat (0 : ℚ)).length = s.toNat := by simp
      have hlen2 : (pylinspace 0 f (e - s).toNat).length = (e - s).toNat :=
        pylinspace_length _ _ _
      have hse2 : s.toNat + (e - s).toNat = e.toNat := by omega
      rw [List.append_assoc]
      have hA : (List.replicate s.toNat (0 : ℚ)).length ≤ L := by rw [hlen1]; omega
      rw [List.getD_append_right _ _ _ _ hA, hlen1]
      have hB : (pylinspace 0 f (e - s).toNat).length ≤ L - s.toNat := by
        rw [hlen2]; omega
      rw [List.getD_append_right _ _ _ _ hB, hlen2]
      rw [getD_replicate_lt _ _ _ (by omega)]
  | triangle f s e => simp [inSpanNoTri] at h

theorem inSpanNoTri_mkLoad_nat (L n : ℕ) (v : ℚ) (h : n ≤ L) :
    inSpanNoTri L (mkLoad v (n : ℚ)) = true := by
  rw [mkLoad, pyround_natCast]
  simp only [inSpanNoTri, Bool.and_eq_true, decide_eq_true_eq]
  constructor
  · exact Int.natCast_nonneg n
  · exact_mod_cast h

theorem mkLoad_size (v p : ℚ) : (mkLoad v p).size = v := rfl

/-- The far-end entry of the summed shear array equals the sum of the load
sizes when every load in the working list is an in-beam non-triangle load. -/
theorem shearD_getD_last (L : ℕ) (working : List PyLoad)
    (h : ∀ ld ∈ working, inSpanNoTri L ld = true) :
    (shearD L working).getD L 0 = (working.map PyLoad.size).sum := by
  rw [shearD, listSum_getD _ _ _ (by omega), List.map_map]
  congr 1
  refine List.map_congr_left (fun ld hld => ?_)
  exact shearList_getD_last L ld (h ld hld)

/-! ### Claim theorems -/

/-- C1: for a problem that passes validation, `solve` computes the reactions
exactly as specified: with two supports `s1 < s2`, `R2` is a point load at
`s2` of magnitude `-(sum of the loads' moment(s1))/(s2 - s1)` and `R1` is a
point load at `s1` of magnitude `-(sum of the sizes of all loads including
R2)`; for a clamped beam `R2` is the bare number `-(sum of moments about 0)`
and `R1` is a point load at `0` of magnitude `-(sum of all load sizes)`. -/
theorem solve_reaction_formulas
    (length : ℚ) (supports : Option (ℚ × ℚ)) (loads : List PyLoad)
    (EI GA top bottom : ArrArg) (shear : Bool) (L s1 : ℕ) (os2 : Option ℕ)
    (EIa GAa topa bota : List ℚ)
    (hchk : _check_length_supports length supports = .ok (L, s1, os2))
    (hld : loads ≠ [])
    (harr : _check_arrays L EI GA top bottom = .ok (EIa, GAa, topa, bota)) :
    ∃ res, solve length supports loads EI GA top bottom shear = .ok res ∧
      (∀ s2, os2 = some s2 →
          res.R2 = .inl (.point
            (-((loads.map (fun ld => ld.momentAt (s1 : ℚ))).sum) / ((s2 : ℚ) - (s1 : ℚ)))
            (s2 : ℤ)) ∧
          res.R1 = .point
            (-((loads.map PyLoad.size).sum +
               -((loads.map (fun ld => ld.momentAt (s1 : ℚ))).sum) / ((s2 : ℚ) - (s1 : ℚ))))
            (s1 : ℤ)) ∧
      (os2 = none →
          s1 = 0 ∧
          res.R2 = .inr (-((loads.map (fun ld => ld.momentAt 0)).sum)) ∧
          res.R1 = .point (-((loads.map PyLoad.size).sum)) 0) := by
  refine ⟨_, solve_eq_ok _ _ _ _ _ _ _ _ _ _ _ _ _ _ _ hchk hld harr, ?_, ?_⟩
  · intro s2 hs2
    subst hs2
    simp only [solveCore_R1, solveCore_R2, addReactions, mkLoad, pyround_natCast]
    simp [List.map_append, List.sum_append, PyLoad.size]
  · intro hnone
    subst hnone
    have hs1 : s1 = 0 := by
        unfold _check_length_supports at hchk
        by_cases hL : pyround length < 1
        · rw [if_pos hL] at hchk; cases hchk
        · rw [if_neg hL] at hchk
          cases supports with
          | none =>
              simp only at hchk
              injection hchk with h
              injection h with h1 h
              injection h with h2 h3
              exact h2.symm
          | some ab =>
              obtain ⟨a, b⟩ := ab
              simp only at hchk
              by_cases hpq : pyround a = pyround b
              · rw [if_pos hpq] at hchk; cases hchk
              · rw [if_neg hpq] at hchk
                by_cases hout : min (pyround a) (pyround b) < 0 ∨
                    max (pyround a) (pyround b) > pyround length
                · rw [if_pos hout] at hchk; cases hchk
                · rw [if_neg hout] at hchk
                  injection hchk with h
                  injection h with h1 h
                  injection h with h2 h3
                  cases h3
    subst hs1
    refine ⟨rfl, ?_, ?_⟩
    · simp only [solveCore_R2, addReactions]
      norm_num
    · simp only [solveCore_R1, addReactions, mkLoad]
      norm_num [pyround_natCast, pyround]

/-- C1 witness: the two-support reaction formulas at a concrete beam
(length 10, supports (0, 10), a single point load of -5 N at 3 mm):
R2 = -(3·(-5))/10 = 3/2 at 10, R1 = -(-5 + 3/2) = 7/2 at 0. -/
theorem solve_reaction_formulas_app :
    _check_length_supports 10 (some (0, 10)) = .ok (10, 0, some 10) ∧
    ∃ res, solve 10 (some (0, 10)) [PyLoad.point (-5) 3]
        (.scalar 1) (.scalar 1) (.scalar 1) (.scalar (-1)) false = .ok res ∧
      (∀ s2, (some 10 : Option ℕ) = some s2 →
        res.R2 = .inl (.point
          (-(([PyLoad.point (-5) 3].map (fun ld => ld.momentAt ((0 : ℕ) : ℚ))).sum) /
            ((s2 : ℚ) - ((0 : ℕ) : ℚ))) (s2 : ℤ)) ∧
        res.R1 = .point
          (-(([PyLoad.point (-5) 3].map PyLoad.size).sum +
             -(([PyLoad.point (-5) 3].map (fun ld => ld.momentAt ((0 : ℕ) : ℚ))).sum) /
               ((s2 : ℚ) - ((0 : ℕ) : ℚ)))) ((0 : ℕ) : ℤ)) ∧
      ((some 10 : Option ℕ) = none →
        (0 : ℕ) = 0 ∧
        res.R2 = .inr (-(([PyLoad.point (-5) 3].map (fun ld => ld.momentAt 0)).sum)) ∧
        res.R1 = .point (-(([PyLoad.point (-5) 3].map PyLoad.size).sum)) 0) := by
  refine ⟨by norm_num [_check_length_supports, pyround]; simp, ?_⟩
  exact solve_reaction_formulas 10 (some (0, 10)) [PyLoad.point (-5) 3]
    (.scalar 1) (.scalar 1) (.scalar 1) (.scalar (-1)) false 10 0 (some 10)
    (List.replicate 11 1) (List.replicate 11 1) (List.replicate 11 1)
    (List.replicate 11 (-1))
    (by norm_num [_check_length_supports, pyround]; simp) (by simp)
    (by norm_num [_check_arrays, checkArr])

theorem solveCore_length (L s1 : ℕ) (os2 : Option ℕ) (loads : List PyLoad)
    (EIa GAa topa bota : List ℚ) (shear : Bool) :
    (solveCore L s1 os2 loads EIa GAa topa bota shear).length = L := by
  cases os2 <;> rfl

/-- C2 counterexample: the claim fails as stated.  For the valid problem
with length 4, supports (0, 4) and the single triangular load of -6 N over
[0, 2], `solve` succeeds and the shear array at the beam's far end is -18,
not 0: `TriangleLoad.shear` keeps accumulating the peak intensity
`q = 2·size/span` beyond the span's end, so the load's contribution at the
far end is `size + (L+1-end)·q = -6 + 3·(-6) = -24` instead of `-6`, and
the reactions (computed from the exact moment balance) no longer cancel
it. -/
theorem shear_far_end_triangle_nonzero :
    (solve 4 (some (0, 4)) [PyLoad.triangle (-6) 0 2]
        (.scalar 1) (.scalar 1) (.scalar 1) (.scalar (-1)) false).map
      (fun r => r.D.getD r.length 0) = .ok (-18) ∧ (-18 : ℚ) ≠ 0 := by
  have hchk : _check_length_supports 4 (some (0, 4)) = .ok (4, 0, some 4) := by
    norm_num [_check_length_supports, pyround]
    simp
  have harr : _check_arrays 4 (.scalar 1) (.scalar 1) (.scalar 1) (.scalar (-1)) =
      .ok (List.replicate 5 1, List.replicate 5 1, List.replicate 5 1,
           List.replicate 5 (-1)) := by
    norm_num [_check_arrays, checkArr]
  rw [solve_eq_ok 4 (some (0, 4)) [PyLoad.triangle (-6) 0 2]
    (.scalar 1) (.scalar 1) (.scalar 1) (.scalar (-1)) false 4 0 (some 4)
    (List.replicate 5 1) (List.replicate 5 1) (List.replicate 5 1)
    (List.replicate 5 (-1)) hchk (by simp) harr]
  simp only [Except.map]
  rw [solveCore_length, solveCore_D]
  constructor
  · have hw : (addReactions [PyLoad.triangle (-6) 0 2] 0 (some 4)).2.2 =
        [PyLoad.triangle (-6) 0 2, PyLoad.point 2 4, PyLoad.point 4 0] := by
      norm_num [addReactions, mkLoad, PyLoad.momentAt, PyLoad.posQ, PyLoad.size, pyround]
    rw [hw]
    norm_num [shearD, listSum, shearList, stepList, sliceStart, cumsum, cumsumAux,
      pylinspace, List.range_succ]
    norm_num [show Int.toNat 2 = 2 from rfl, show Int.toNat 4 = 4 from rfl]
  · norm_num

/-- C2 (amended): for every valid problem whose loads are point, distributed
or moment loads lying inside `[0, L]` — no triangular loads — the shear
array `D` is exactly zero at the beam's far end after all load and reaction
contributions are summed.  (The original claim also admitted triangular
loads; the counterexample above shows triangular loads break the
invariant.) -/
theorem shear_far_end_zero_no_triangle
    (length : ℚ) (supports : Option (ℚ × ℚ)) (loads : List PyLoad)
    (EI GA top bottom : ArrArg) (shear : Bool) (L s1 : ℕ) (os2 : Option ℕ)
    (EIa GAa topa bota : List ℚ)
    (hchk : _check_length_supports length supports = .ok (L, s1, os2))
    (hld : loads ≠ [])
    (harr : _check_arrays L EI GA top bottom = .ok (EIa, GAa, topa, bota))
    (hin : ∀ ld ∈ loads, inSpanNoTri L ld = true) :
    ∃ res, solve length supports loads EI GA top bottom shear = .ok res ∧
      res.D.getD res.length 0 = 0 := by
  refine ⟨_, solve_eq_ok _ _ _ _ _ _ _ _ _ _ _ _ _ _ _ hchk hld harr, ?_⟩
  obtain ⟨hL1, hs1L, hs2⟩ := check_ok_bounds _ _ _ _ _ hchk
  rw [solveCore_length, solveCore_D]
  cases os2 with
  | some s2 =>
      obtain ⟨h12, h2L⟩ := hs2 s2 rfl
      simp only [addReactions]
      rw [shearD_getD_last]
      · simp [List.map_append, List.sum_append, mkLoad, PyLoad.size]
      · intro ld hld2
        rcases List.mem_append.mp hld2 with h | h
        · rcases List.mem_append.mp h with h1 | h1
          · exact hin ld h1
          · rw [List.mem_singleton.mp h1]
            exact inSpanNoTri_mkLoad_nat L s2 _ h2L
        · rw [List.mem_singleton.mp h]
          exact inSpanNoTri_mkLoad_nat L s1 _ hs1L
  | none =>
      simp only [addReactions]
      rw [shearD_getD_last]
      · simp [List.map_append, List.sum_append, mkLoad, PyLoad.size]
      · intro ld hld2
        rcases List.mem_append.mp hld2 with h | h
        · exact hin ld h
        · rw [List.mem_singleton.mp h]
          exact inSpanNoTri_mkLoad_nat L s1 _ hs1L

/-- C2 witness: the amended far-end equilibrium at a concrete beam with a
point load, a distributed load and a moment load. -/
theorem shear_far_end_zero_no_triangle_app :
    ∃ res, solve 10 (some (0, 10))
        [PyLoad.point (-5) 3, PyLoad.dist (-4) 2 6, PyLoad.momentL 7 4]
        (.scalar 1) (.scalar 1) (.scalar 1) (.scalar (-1)) false = .ok res ∧
      res.D.getD res.length 0 = 0 :=
  shear_far_end_zero_no_triangle 10 (some (0, 10))
    [PyLoad.point (-5) 3, PyLoad.dist (-4) 2 6, PyLoad.momentL 7 4]
    (.scalar 1) (.scalar 1) (.scalar 1) (.scalar (-1)) false 10 0 (some 10)
    (List.replicate 11 1) (List.replicate 11 1) (List.replicate 11 1)
    (List.replicate 11 (-1))
    (by norm_num [_check_length_supports, pyround]; simp) (by simp)
    (by norm_num [_check_arrays, checkArr]) (by decide)

/-- C3: for every simply supported problem that passes validation (distinct
supports `s1 < s2` inside the beam, any load set, any profile arrays), the
deflection array returned by `solve` is exactly 0 at both support
positions after the translate-then-rotate boundary normalization. -/
theorem deflection_zero_at_supports
    (length : ℚ) (supports : Option (ℚ × ℚ)) (loads : List PyLoad)
    (EI GA top bottom : ArrArg) (shear : Bool) (L s1 s2 : ℕ)
    (EIa GAa topa bota : List ℚ)
    (hchk : _check_length_supports length supports = .ok (L, s1, some s2))
    (hld : loads ≠ [])
    (harr : _check_arrays L EI GA top bottom = .ok (EIa, GAa, topa, bota)) :
    ∃ res, solve length supports loads EI GA top bottom shear = .ok res ∧
      res.y.getD s1 0 = 0 ∧ res.y.getD s2 0 = 0 := by
  refine ⟨_, solve_eq_ok _ _ _ _ _ _ _ _ _ _ _ _ _ _ _ hchk hld harr, ?_, ?_⟩
  all_goals {
    obtain ⟨hE, hG, hT, hB⟩ := _check_arrays_ok _ _ _ _ _ _ _ _ _ harr
    have hElen := checkArr_ok_length _ _ _ _ hE
    have hGlen := checkArr_ok_length _ _ _ _ hG
    obtain ⟨hL1, hs1L, hs2f⟩ := check_ok_bounds _ _ _ _ _ hchk
    obtain ⟨h12, h2L⟩ := hs2f s2 rfl
    rw [solveCore_y_two]
    have hD := shearD_length L (addReactions loads s1 (some s2)).2.2
    have hM := momentM_length L (some s2) (addReactions loads s1 (some s2)).2.2
    have hddy : (List.zipWith (· / ·)
        (momentM L (some s2) (addReactions loads s1 (some s2)).2.2) EIa).length = L + 1 := by
      rw [List.length_zipWith, hM, hElen, min_self]
    have hdy : (dyOf GAa shear (shearD L (addReactions loads s1 (some s2)).2.2)
        (List.zipWith (· / ·)
          (momentM L (some s2) (addReactions loads s1 (some s2)).2.2) EIa)).length = L + 1 := by
      rw [dyOf_length _ _ _ _ (by rw [hD, hddy]) (by rw [hGlen, hddy]), hddy]
    have hy0 : (cumsum (dyOf GAa shear (shearD L (addReactions loads s1 (some s2)).2.2)
        (List.zipWith (· / ·)
          (momentM L (some s2) (addReactions loads s1 (some s2)).2.2) EIa))).length = L + 1 := by
      rw [cumsum_length, hdy]
    first
    | exact alignY_getD_fst L s1 s2 _ hy0 hs1L
    | exact alignY_getD_snd L s1 s2 _ hy0 h12 h2L
  }

/-- C3 witness: the support-alignment invariant at a concrete simply
supported beam (length 10, supports (0, 10), a point load of -5 N at 3). -/
theorem deflection_zero_at_supports_app :
    ∃ res, solve 10 (some (0, 10)) [PyLoad.point (-5) 3]
        (.scalar 1) (.scalar 1) (.scalar 1) (.scalar (-1)) true = .ok res ∧
      res.y.getD 0 0 = 0 ∧ res.y.getD 10 0 = 0 :=
  deflection_zero_at_supports 10 (some (0, 10)) [PyLoad.point (-5) 3]
    (.scalar 1) (.scalar 1) (.scalar 1) (.scalar (-1)) true 10 0 10
    (List.replicate 11 1) (List.replicate 11 1) (List.replicate 11 1)
    (List.replicate 11 (-1))
    (by norm_num [_check_length_supports, pyround]; simp) (by simp)
    (by norm_num [_check_arrays, checkArr])

/-- `isinstance(ld, MomentLoad)` is false for the appended reaction point
loads, so filtering the working list for moment loads is filtering the
caller's loads. -/
theorem filter_momentL_working (loads : List PyLoad) (s1 : ℕ) (os2 : Option ℕ) :
    (addReactions loads s1 os2).2.2.filter PyLoad.isMomentL =
      loads.filter PyLoad.isMomentL := by
  cases os2 <;>
    simp [addReactions, mkLoad, PyLoad.isMomentL, List.filter_append]

/-- C4: a pure moment load contributes an identically zero shear array; its
`moment_array` is 0 below the load position and exactly `-m` from it
onward; and `solve` adds the moment-load steps elementwise to the
cumulative sum of the shear array when building `M`. -/
theorem momentload_shear_zero_and_moment_step
    (m : ℚ) (p : ℤ) (Lm : ℕ) (hp0 : 0 ≤ p) (hpL : p ≤ (Lm : ℤ))
    (length : ℚ) (supports : Option (ℚ × ℚ)) (loads : List PyLoad)
    (EI GA top bottom : ArrArg) (shear : Bool) (L s1 s2 : ℕ)
    (EIa GAa topa bota : List ℚ)
    (hchk : _check_length_supports length supports = .ok (L, s1, some s2))
    (hld : loads ≠ [])
    (harr : _check_arrays L EI GA top bottom = .ok (EIa, GAa, topa, bota)) :
    shearList (.momentL m p) Lm = List.replicate (Lm + 1) 0 ∧
    (∀ i : ℕ, i ≤ Lm → (momentArr (.momentL m p) Lm).getD i 0 =
        if (i : ℤ) < p then 0 else -m) ∧
    (∃ res, solve length supports loads EI GA top bottom shear = .ok res ∧
      ∀ i : ℕ, i ≤ L →
        res.M.getD i 0 = (cumsum res.D).getD i 0 +
          ((loads.filter PyLoad.isMomentL).map
            (fun ld => (momentArr ld L).getD i 0)).sum) := by
  refine ⟨rfl, ?_, ?_⟩
  · intro i hi
    rw [momentArr, stepList_getD _ _ _ _ (by omega)]
    rw [sliceStart, if_pos hp0]
    have hmin : min p.toNat (Lm + 1) = p.toNat := by omega
    rw [hmin]
    by_cases hip : (i : ℤ) < p
    · rw [if_neg (by omega), if_pos hip]
    · rw [if_pos (by omega), if_neg hip]
  · refine ⟨_, solve_eq_ok _ _ _ _ _ _ _ _ _ _ _ _ _ _ _ hchk hld harr, ?_⟩
    intro i hi
    rw [solveCore_M, solveCore_D]
    simp only [momentM]
    rw [getD_zipWith_add _ _ i
      (by rw [cumsum_length, shearD_length]; omega)
      (by rw [listSum_length]; omega)]
    rw [listSum_getD _ _ _ (by omega), List.map_map, filter_momentL_working]
    rfl

/-- C4 witness: the moment-load properties at magnitude 7, position 4,
beam length 10, with a concrete simply supported solve. -/
theorem momentload_shear_zero_and_moment_step_app :
    shearList (.momentL 7 4) 10 = List.replicate 11 0 ∧
    (∀ i : ℕ, i ≤ 10 → (momentArr (.momentL 7 4) 10).getD i 0 =
        if (i : ℤ) < 4 then 0 else -7) ∧
    (∃ res, solve 10 (some (0, 10)) [PyLoad.momentL 7 4, PyLoad.point (-5) 3]
        (.scalar 1) (.scalar 1) (.scalar 1) (.scalar (-1)) false = .ok res ∧
      ∀ i : ℕ, i ≤ 10 →
        res.M.getD i 0 = (cumsum res.D).getD i 0 +
          (([PyLoad.momentL 7 4, PyLoad.point (-5) 3].filter PyLoad.isMomentL).map
            (fun ld => (momentArr ld 10).getD i 0)).sum) :=
  momentload_shear_zero_and_moment_step 7 4 10 (by decide) (by decide)
    10 (some (0, 10)) [PyLoad.momentL 7 4, PyLoad.point (-5) 3]
    (.scalar 1) (.scalar 1) (.scalar 1) (.scalar (-1)) false 10 0 10
    (List.replicate 11 1) (List.replicate 11 1) (List.replicate 11 1)
    (List.replicate 11 (-1))
    (by norm_num [_check_length_supports, pyround]; simp) (by simp)
    (by norm_num [_check_arrays, checkArr])

/-- A point-load slice assignment entirely past the end of the array writes
nothing: `rv[p:] = v` with `p >= len(rv)` leaves the zero array. -/
theorem stepList_all_zero (n : ℕ) (p : ℤ) (v : ℚ) (h : (n : ℤ) ≤ p) :
    stepList n p v = List.replicate n 0 := by
  apply List.ext_getElem
  · simp [stepList]
  · intro i h1 h2
    simp only [stepList, List.getElem_map, List.getElem_range, List.getElem_replicate]
    rw [if_neg]
    have hn : i < n := by simpa [stepList] using h1
    rw [sliceStart, if_pos (by omega)]
    omega

/-- C5 counterexample: the claim fails as stated.  A `DistLoad` whose start
and end round to the same integer (here 5 and 5) is constructed without any
error, and `solve` on it succeeds — nothing rejects the zero-length span
with a validation error. -/
theorem zero_span_distload_accepted :
    mkDistLoad (-10) 5 5 = PyLoad.dist (-10) 5 5 ∧
    ∃ res, solve 10 (some (0, 10)) [PyLoad.dist (-10) 5 5]
        (.scalar 1) (.scalar 1) (.scalar 1) (.scalar (-1)) false = .ok res := by
  constructor
  · norm_num [mkDistLoad, pyround]
  · exact ⟨_, solve_eq_ok 10 (some (0, 10)) [PyLoad.dist (-10) 5 5]
      (.scalar 1) (.scalar 1) (.scalar 1) (.scalar (-1)) false 10 0 (some 10)
      (List.replicate 11 1) (List.replicate 11 1) (List.replicate 11 1)
      (List.replicate 11 (-1))
      (by norm_num [_check_length_supports, pyround]; simp) (by simp)
      (by norm_num [_check_arrays, checkArr])⟩

/-- C5 (amended): a zero-length `DistLoad` span is accepted without any
validation and silently behaves as a well-formed step (point-like) load at
its position, while a zero-length `TriangleLoad` span fails at construction
with `ZeroDivisionError` (a division `2*size/0`), not with a validation
`ValueError`. -/
theorem zero_span_behavior (f : ℚ) (p : ℤ) (L : ℕ) (hp0 : 0 ≤ p)
    (hpL : p ≤ (L : ℤ)) :
    mkDistLoad f (p : ℚ) (p : ℚ) = .dist f p p ∧
    (∀ i : ℕ, i ≤ L → (shearList (.dist f p p) L).getD i 0 =
        if (i : ℤ) < p then 0 else f) ∧
    mkTriangleLoad f (p : ℚ) (p : ℚ) = .error .zeroDivisionError := by
  refine ⟨?_, ?_, ?_⟩
  · simp [mkDistLoad, pyround_intCast]
  · intro i hi
    rw [shearList]
    have hz : (p - p).toNat = 0 := by omega
    rw [hz]
    have hlin : pylinspace 0 f 0 = [] := rfl
    rw [hlin, List.append_nil]
    by_cases hip : (i : ℤ) < p
    · rw [if_pos hip]
      have h1 : i < (List.replicate p.toNat (0 : ℚ)).length := by
        rw [List.length_replicate]; omega
      rw [List.getD_append _ _ _ _ h1]
      exact getD_replicate_lt _ _ _ (by omega)
    · rw [if_neg hip]
      have h1 : (List.replicate p.toNat (0 : ℚ)).length ≤ i := by
        rw [List.length_replicate]; omega
      rw [List.getD_append_right _ _ _ _ h1, List.length_replicate]
      exact getD_replicate_lt _ _ _ (by omega)
  · simp [mkTriangleLoad, pyround_intCast]

/-- C5 witness: the zero-span behavior at force -10, position 5, beam
length 10. -/
theorem zero_span_behavior_app :
    mkDistLoad (-10) ((5 : ℤ) : ℚ) ((5 : ℤ) : ℚ) = .dist (-10) 5 5 ∧
    (∀ i : ℕ, i ≤ 10 → (shearList (.dist (-10) 5 5) 10).getD i 0 =
        if (i : ℤ) < 5 then 0 else -10) ∧
    mkTriangleLoad (-10) ((5 : ℤ) : ℚ) ((5 : ℤ) : ℚ) = .error .zeroDivisionError :=
  zero_span_behavior (-10) 5 10 (by decide) (by decide)

/-- C6: whenever the two support positions round to the same integer,
`solve` raises a `ValueError` from its first validation step and produces
no result (the returned value is an `error`, never a partially filled
result). -/
theorem identical_supports_validation_error (length a b : ℚ)
    (loads : List PyLoad) (EI GA top bottom : ArrArg) (shear : Bool)
    (h : pyround a = pyround b) :
    ∃ msg, solve length (some (a, b)) loads EI GA top bottom shear =
      .error (.valueError msg) := by
  by_cases hL : pyround length < 1
  · exact ⟨"length must be >=1", by simp [solve, _check_length_supports, hL]⟩
  · exact ⟨"Two identical supports found!",
      by simp [solve, _check_length_supports, hL, h]⟩

/-- C6 witness: identical supports (3, 3) on a length-10 beam. -/
theorem identical_supports_validation_error_app :
    pyround 3 = pyround 3 ∧
    ∃ msg, solve 10 (some (3, 3)) [PyLoad.point (-5) 2]
      (.scalar 1) (.scalar 1) (.scalar 1) (.scalar (-1)) false =
        .error (.valueError msg) :=
  ⟨rfl, identical_supports_validation_error 10 3 3 [PyLoad.point (-5) 2]
    (.scalar 1) (.scalar 1) (.scalar 1) (.scalar (-1)) false rfl⟩

/-- C7 counterexample: the claim fails as stated.  A point load at position
110 on a length-10 beam (far outside `[0, L]`) passes `_check_loads`, its
shear contribution is silently the zero array, and `solve` accepts the
problem without any error. -/
theorem out_of_range_load_accepted :
    _check_loads [PyLoad.point (-100) 110] = .ok [PyLoad.point (-100) 110] ∧
    shearList (PyLoad.point (-100) 110) 10 = List.replicate 11 0 ∧
    ∃ res, solve 10 (some (0, 10)) [PyLoad.point (-100) 110]
        (.scalar 1) (.scalar 1) (.scalar 1) (.scalar (-1)) false = .ok res := by
  refine ⟨rfl, ?_, ?_⟩
  · exact stepList_all_zero 11 110 (-100) (by omega)
  · exact ⟨_, solve_eq_ok 10 (some (0, 10)) [PyLoad.point (-100) 110]
      (.scalar 1) (.scalar 1) (.scalar 1) (.scalar (-1)) false 10 0 (some 10)
      (List.replicate 11 1) (List.replicate 11 1) (List.replicate 11 1)
      (List.replicate 11 (-1))
      (by norm_num [_check_length_supports, pyround]; simp) (by simp)
      (by norm_num [_check_arrays, checkArr])⟩

/-- C7 (amended): `solve` does not validate load positions — `_check_loads`
accepts every nonempty list of `Load` instances unchanged — and a point
load lying beyond the beam end contributes an identically zero shear array,
i.e. it is silently dropped from the shear profile (while its magnitude
still enters the reaction balance). -/
theorem loads_position_not_validated (loads : List PyLoad) (hne : loads ≠ [])
    (s : ℚ) (p : ℤ) (L : ℕ) (hout : (L : ℤ) < p) :
    _check_loads loads = .ok loads ∧
    shearList (.point s p) L = List.replicate (L + 1) 0 := by
  constructor
  · unfold _check_loads
    cases loads with
    | nil => exact absurd rfl hne
    | cons x xs => rfl
  · exact stepList_all_zero (L + 1) p s (by omega)

/-- C7 witness: the missing position validation at the concrete
out-of-range point load of -100 N at 110 on a length-10 beam. -/
theorem loads_position_not_validated_app :
    _check_loads [PyLoad.point (-100) 110] = .ok [PyLoad.point (-100) 110] ∧
    shearList (.point (-100) 110) 10 = List.replicate 11 0 :=
  loads_position_not_validated [PyLoad.point (-100) 110] (by simp)
    (-100) 110 10 (by decide)

/-- C8: on a single homogeneous rectangular layer of width `B`, height `H`,
modulus `E` (any offset), the cross-section composer returns the classical
bending stiffness `E*B*H^3/12` (hence within 1% of it) and fiber distances
exactly `+H/2` and `-H/2`. -/
theorem EI_single_rectangle (B H offs E : ℚ) (normal : Option ℚ)
    (hB : 0 < B) (hH : 0 < H) (hE : 0 < E) :
    (EIfun [⟨B, H, offs, E⟩] normal).1 = E * B * H ^ 3 / 12 ∧
    |(EIfun [⟨B, H, offs, E⟩] normal).1 - E * B * H ^ 3 / 12| ≤
      (1 / 100) * (E * B * H ^ 3 / 12) ∧
    (EIfun [⟨B, H, offs, E⟩] normal).2.1 = H / 2 ∧
    (EIfun [⟨B, H, offs, E⟩] normal).2.2 = -(H / 2) := by
  have hE' : E ≠ 0 := ne_of_gt hE
  have hB' : B ≠ 0 := ne_of_gt hB
  have hH' : H ≠ 0 := ne_of_gt hH
  have hyn : EIyn [⟨B, H, offs, E⟩] = offs + H / 2 := by
    simp only [EIyn, List.headD, List.map, List.sum_cons, List.sum_nil]
    rw [div_eq_iff (by field_simp)]
    field_simp
    ring
  have h1 : (offs : ℚ) < offs + H / 2 := by linarith
  have h2 : H + offs > offs + H / 2 := by linarith
  have hsp : EIsplit [⟨B, H, offs, E⟩] =
      [⟨B, H / 2, H / 2, 0, E⟩, ⟨B, H / 2, 0, -(H / 2), E⟩] := by
    simp only [EIsplit, hyn]
    simp only [List.filter, decide_eq_true_eq]
    rw [decide_eq_true h1, decide_eq_true h2]
    simp only [Bool.and_self, Bool.not_true, List.map, List.flatten, List.append_nil]
    have hd : offs + H / 2 - offs = H / 2 := by ring
    have hd2 : H - H / 2 = H / 2 := by ring
    rw [hd, hd2]
  have hval : (EIfun [⟨B, H, offs, E⟩] normal).1 = E * B * H ^ 3 / 12 := by
    simp only [EIfun, hsp, List.map, List.sum_cons, List.sum_nil]
    ring
  refine ⟨hval, ?_, ?_, ?_⟩
  · rw [hval]
    simp only [sub_self, abs_zero]
    positivity
  · simp only [EIfun, hsp, List.map, pymax]
    simp only [List.foldl]
    rw [max_eq_left (by linarith)]
  · simp only [EIfun, hsp, List.map, pymin]
    simp only [List.foldl]
    rw [min_eq_right (by linarith)]

/-- C8 witness: the single-rectangle result at `B = 100`, `H = 20`,
offset `7/2`, `E = 210000` (the docstring example is the offset-0 case,
`EI = 14000000000`, `top, bot = 10, -10`). -/
theorem EI_single_rectangle_app :
    (EIfun [⟨100, 20, 7/2, 210000⟩] none).1 = 210000 * 100 * 20 ^ 3 / 12 ∧
    |(EIfun [⟨100, 20, 7/2, 210000⟩] none).1 - 210000 * 100 * 20 ^ 3 / 12| ≤
      (1 / 100) * (210000 * 100 * 20 ^ 3 / 12) ∧
    (EIfun [⟨100, 20, 7/2, 210000⟩] none).2.1 = 20 / 2 ∧
    (EIfun [⟨100, 20, 7/2, 210000⟩] none).2.2 = -(20 / 2) :=
  EI_single_rectangle 100 20 (7/2) 210000 none
    (by norm_num) (by norm_num) (by norm_num)

/-- C9: `solve` copies the caller's load list before appending the reaction
loads (modeled on an explicit heap of list objects, `solveListOps`): after
the call the caller's list object is unchanged, and the internal working
list is the caller's elements followed by the appended reactions. -/
theorem caller_loads_unchanged (store : List (List PyLoad)) (callerRef s1 : ℕ)
    (os2 : Option ℕ) (h : callerRef < store.length) :
    (solveListOps store callerRef s1 os2).1.getD callerRef [] =
      store.getD callerRef [] ∧
    ∃ rs, rs ≠ [] ∧
      (solveListOps store callerRef s1 os2).1.getD
          (solveListOps store callerRef s1 os2).2 [] =
        store.getD callerRef [] ++ rs := by
  simp only [solveListOps]
  constructor
  · exact List.getD_append _ _ _ _ h
  · have hw : (store ++ [(addReactions (store.getD callerRef []) s1 os2).2.2]).getD
        store.length [] = (addReactions (store.getD callerRef []) s1 os2).2.2 := by
      rw [List.getD_append_right _ _ _ _ (le_refl _), Nat.sub_self]
      rfl
    rw [hw]
    cases os2 with
    | some s2 =>
        simp only [addReactions]
        refine ⟨_, ?_, List.append_assoc _ _ _⟩
        simp
    | none =>
        simp only [addReactions]
        refine ⟨_, ?_, rfl⟩
        simp

/-- C9 witness: the frame property on a concrete one-list heap. -/
theorem caller_loads_unchanged_app :
    (solveListOps [[PyLoad.point (-5) 3]] 0 0 (some 10)).1.getD 0 [] =
      [[PyLoad.point (-5) 3]].getD 0 [] ∧
    ∃ rs, rs ≠ [] ∧
      (solveListOps [[PyLoad.point (-5) 3]] 0 0 (some 10)).1.getD
          (solveListOps [[PyLoad.point (-5) 3]] 0 0 (some 10)).2 [] =
        [[PyLoad.point (-5) 3]].getD 0 [] ++ rs :=
  caller_loads_unchanged [[PyLoad.point (-5) 3]] 0 0 (some 10) (by decide)

/-- C10: the current variant's cross-section composer ignores its `normal`
argument entirely (it is overwritten with the first layer's modulus before
use), so the returned (stiffness, top, bottom) triple is the same for every
value of `normal`, including `none`. -/
theorem EI_normal_unused (sections : List Sect) (n1 n2 : Option ℚ) :
    EIfun sections n1 = EIfun sections n2 := rfl

/-- Facts guaranteed by a successful two-support `_check_length_supports`. -/
theorem check_ok_two (len a b : ℚ) (L s1 s2 : ℕ)
    (h : _check_length_supports len (some (a, b)) = .ok (L, s1, some s2)) :
    1 ≤ L ∧ s1 < s2 ∧ s2 ≤ L := by
  unfold _check_length_supports at h
  by_cases hL : pyround len < 1
  · rw [if_pos hL] at h; cases h
  · rw [if_neg hL] at h
    simp only at h
    by_cases hpq : pyround a = pyround b
    · rw [if_pos hpq] at h; cases h
    · rw [if_neg hpq] at h
      by_cases hout : min (pyround a) (pyround b) < 0 ∨ max (pyround a) (pyround b) > pyround len
      · rw [if_pos hout] at h; cases h
      · rw [if_neg hout] at h
        push_neg at hout
        obtain ⟨hmin, hmax⟩ := hout
        push_neg at hL
        injection h with h
        injection h with h1 h
        injection h with h2 h3
        injection h3 with h3
        subst h1; subst h2; subst h3
        have hlt : min (pyround a) (pyround b) < max (pyround a) (pyround b) :=
          min_lt_max.mpr hpq
        refine ⟨by omega, by omega, by omega⟩

end Beammech
